import Mathlib

/-
Shallow embedding of the probe-orchestration and report-aggregation engine of
the blockchain-security-testing repository.

Sources embedded:
  * src/utils/security_helpers.py
      - SecurityTester.log_vulnerability / get_vulnerability_report /
        _count_by_severity
      - IntegerOverflowTester.test_overflow
      - AccessControlTester.test_access_control
      - SecurityTestSuite.run_all_tests
  * src/scripts/run_security_tests.py
      - generate_comprehensive_report (per-file vulnerability collection,
        Slither-detector merge, summary / risk level)

Modelling conventions:
  - Python dict severity counters {"HIGH": _, "MEDIUM": _, "LOW": _} become the
    structure SevCounts; indexing with an unknown key (Python KeyError) is
    modelled by returning none from `bump`.
  - A target call (`func(x)` followed by `tx.wait(1)`) is modelled as a
    function returning `Except Exc Unit`.  An `Exc` carries the exception kind
    (a revert raised by the chain, or any other Python exception such as a
    malformed-configuration error) and its message, mirroring the fact that
    brownie surfaces a revert as an exception of a particular class.  The
    probes' `except Exception` handlers catch both kinds alike.
  - Wall-clock fields (the `timestamp` entries produced by time.time()) are
    elided: no claim mentions them and they carry no program logic.
  - Probe bodies invoked by `run_all_tests` are abstracted as a parameter
    (`ProbeSem`): for a category the parameter yields the findings the probe
    block appends to its tester's `vulnerabilities_found` list and optionally
    the unexpected error it raises partway through.  The guard structure, the
    per-category try/except wrapping, the report construction and the
    threading of tester state are translated directly from run_all_tests.
    The individual probes themselves (test_overflow, test_access_control) are
    embedded separately against an abstract target.
-/

namespace SecTest

/-- One entry of a tester's `vulnerabilities_found` list, as produced by
SecurityTester.log_vulnerability: `{"type": .., "description": .., "severity": ..}`
(the wall-clock `timestamp` field is elided). -/
structure Finding where
  vtype : String
  description : String
  severity : String
deriving DecidableEq, Repr

/-- The Python severity counter dict `{"HIGH": 0, "MEDIUM": 0, "LOW": 0}`. -/
structure SevCounts where
  high : Nat
  medium : Nat
  low : Nat
deriving DecidableEq, Repr

/-- Sum of the values of the severity-count map. -/
def SevCounts.sum (c : SevCounts) : Nat := c.high + c.medium + c.low

/-- `counts[severity] += 1`: indexing the counter dict with key `s`.  A key
other than HIGH/MEDIUM/LOW raises KeyError in Python, modelled as `none`. -/
def bump (c : SevCounts) (s : String) : Option SevCounts :=
  if s = "HIGH" then some { c with high := c.high + 1 }
  else if s = "MEDIUM" then some { c with medium := c.medium + 1 }
  else if s = "LOW" then some { c with low := c.low + 1 }
  else none

/-- The severities the counter dict can absorb without a KeyError. -/
def validSeverity (s : String) : Prop := s = "HIGH" ∨ s = "MEDIUM" ∨ s = "LOW"

instance (s : String) : Decidable (validSeverity s) := by
  unfold validSeverity; infer_instance

/-- SecurityTester._count_by_severity: fold the counter dict over the findings
list; the first finding with an unknown severity raises KeyError (`none`). -/
def countFrom (c : SevCounts) : List Finding → Option SevCounts
  | [] => some c
  | v :: vs =>
    match bump c v.severity with
    | some c' => countFrom c' vs
    | none => none

/-- `_count_by_severity` starting from the zeroed dict. -/
def countBySeverity (vs : List Finding) : Option SevCounts :=
  countFrom ⟨0, 0, 0⟩ vs

/-- The dict returned by SecurityTester.get_vulnerability_report. -/
structure TesterReport where
  total_vulnerabilities : Nat
  vulnerabilities : List Finding
  severity_counts : SevCounts
deriving DecidableEq, Repr

/-- SecurityTester.get_vulnerability_report over a tester's accumulated
`vulnerabilities_found` list; `none` when `_count_by_severity` raises. -/
def getVulnerabilityReport (vs : List Finding) : Option TesterReport :=
  (countBySeverity vs).map fun cnt => ⟨vs.length, vs, cnt⟩

end SecTest

namespace SecTest

/-- A vulnerability record as read from a per-file JSON report in
generate_comprehensive_report; each field is fetched with .get and a default,
so each is optional in the input. -/
structure RawVuln where
  vtype : Option String
  description : Option String
  severity : Option String
deriving DecidableEq, Repr

/-- A Slither detector record `{check, description, impact}` as read from
reports/slither_report.json (all fields fetched with .get defaults). -/
structure Detector where
  check : Option String
  description : Option String
  impact : Option String
deriving DecidableEq, Repr

/-- One entry of the aggregator's flattened `report["vulnerabilities"]` list. -/
structure ReportVuln where
  test_file : String
  vtype : String
  description : String
  severity : String
deriving DecidableEq, Repr

/-- The mutable aggregation state of generate_comprehensive_report:
`total_vulnerabilities`, `severity_counts`, and `report["vulnerabilities"]`. -/
structure AggState where
  total : Nat
  counts : SevCounts
  vulns : List ReportVuln
deriving DecidableEq, Repr

/-- The flattened entry the aggregator appends for one file vulnerability:
`{"test_file": .., "type": vuln.get("type","Unknown"), "description":
vuln.get("description","No description"), "severity": severity}`. -/
def mkFileVuln (file : String) (v : RawVuln) : ReportVuln :=
  ⟨file, v.vtype.getD "Unknown", v.description.getD "No description",
    v.severity.getD "LOW"⟩

/-- The inner `for vuln in vulns` loop of generate_comprehensive_report: for
each vulnerability the severity is fetched with default "LOW", the counter
dict is indexed (possible KeyError) and the flattened entry appended.  The
Bool flags whether a KeyError aborted the loop (the exception is caught by the
surrounding per-file handler, so the state mutated so far survives). -/
def processVulns (file : String) (st : AggState) : List RawVuln → AggState × Bool
  | [] => (st, false)
  | v :: vs =>
    match bump st.counts (v.severity.getD "LOW") with
    | none => (st, true)
    | some c =>
      processVulns file
        { st with counts := c, vulns := st.vulns ++ [mkFileVuln file v] } vs

/-- One `result` of a parsed test-report file.  `none` models a value that is
not a dict with a "vulnerabilities" key (skipped); `some vs` models
`result["vulnerabilities"] == vs`, for which `total_vulnerabilities` is first
increased by `len(vulns)` and then the vulnerabilities are processed. -/
def processResult (file : String) (st : AggState) :
    Option (List RawVuln) → AggState × Bool
  | none => (st, false)
  | some vs => processVulns file { st with total := st.total + vs.length } vs

/-- The `for result in test_results.values()` loop.  A KeyError raised while
processing one result is caught by the per-file `except`, skipping the rest of
that file but keeping the state already accumulated. -/
def processResults (file : String) (st : AggState) :
    List (Option (List RawVuln)) → AggState
  | [] => st
  | r :: rs =>
    match processResult file st r with
    | (st', true) => st'
    | (st', false) => processResults file st' rs

/-- The `for test_file in test_files` loop over the report files that exist
and parse (a missing or unreadable file contributes nothing). -/
def processFiles (st : AggState) :
    List (String × List (Option (List RawVuln))) → AggState
  | [] => st
  | (file, rs) :: fs => processFiles (processResults file st rs) fs

/-- Lower-case image of a string, character by character (Python str.lower on
the ASCII range relevant to the "critical" test). -/
def lcData (s : String) : List Char := s.data.map Char.toLower

/-- Python `"critical" in detector.get('impact','').lower()`: substring
containment after lower-casing. -/
def containsCritical (s : String) : Bool :=
  decide ("critical".data <:+: lcData s)

/-- The severity the aggregator assigns to a Slither detector:
`"HIGH" if "critical" in detector.get('impact','').lower() else "MEDIUM"`. -/
def slitherSeverity (d : Detector) : String :=
  if containsCritical (d.impact.getD "") then "HIGH" else "MEDIUM"

/-- The flattened entry appended for one Slither detector. -/
def mkSlitherVuln (d : Detector) : ReportVuln :=
  ⟨"slither", d.check.getD "Unknown", d.description.getD "No description",
    slitherSeverity d⟩

/-- The `for detector in slither_results...` loop: per detector the counter is
indexed first, then the total increased and the entry appended.  A KeyError
(impossible here, since the severity is always HIGH or MEDIUM) would be caught
by the surrounding handler, skipping the remaining detectors. -/
def mergeDetectors (st : AggState) : List Detector → AggState
  | [] => st
  | d :: ds =>
    match bump st.counts (slitherSeverity d) with
    | none => st
    | some c =>
      mergeDetectors
        { total := st.total + 1, counts := c,
          vulns := st.vulns ++ [mkSlitherVuln d] } ds

/-- The parsed inputs of generate_comprehensive_report: the per-file test
results (file name with its list of result values) and, when the Slither
report file exists and parses, its detector list. -/
structure AggInput where
  files : List (String × List (Option (List RawVuln)))
  slither : Option (List Detector)
deriving Repr

/-- Initial aggregation state: zero total, zeroed counters, empty list. -/
def initAgg : AggState := ⟨0, ⟨0, 0, 0⟩, []⟩

/-- The vulnerability-collection phase of generate_comprehensive_report:
process every test-report file, then merge the Slither detectors if present. -/
def aggregate (inp : AggInput) : AggState :=
  match inp.slither with
  | some ds => mergeDetectors (processFiles initAgg inp.files) ds
  | none => processFiles initAgg inp.files

/-- `report["summary"]` of generate_comprehensive_report. -/
structure Summary where
  total_vulnerabilities : Nat
  severity_counts : SevCounts
  risk_level : String
deriving DecidableEq, Repr

/-- `"HIGH" if severity_counts["HIGH"] > 0 else "MEDIUM" if
severity_counts["MEDIUM"] > 0 else "LOW"`. -/
def riskLevel (c : SevCounts) : String :=
  if 0 < c.high then "HIGH" else if 0 < c.medium then "MEDIUM" else "LOW"

/-- The summary built from an aggregation state. -/
def summaryOf (st : AggState) : Summary :=
  ⟨st.total, st.counts, riskLevel st.counts⟩

/-- The summary generate_comprehensive_report computes for given inputs. -/
def comprehensiveSummary (inp : AggInput) : Summary :=
  summaryOf (aggregate inp)

end SecTest

namespace SecTest

/-- Kind of a Python exception raised by a target call: a revert surfaced by
the chain (brownie's VirtualMachineError), or any other exception such as a
malformed-configuration error. -/
inductive ExcKind where
  | revert
  | other
deriving DecidableEq, Repr

/-- A raised Python exception: its kind and its message (`str(e)`). -/
structure Exc where
  kind : ExcKind
  msg : String
deriving DecidableEq, Repr

/-- The target surface IntegerOverflowTester.test_overflow touches:
`hasFn` models `hasattr(contract, function_name)`, and `call i` models
`tx = func(i); tx.wait(1)` (returning normally or raising). -/
structure OverflowTarget where
  hasFn : Bool
  call : Int → Except Exc Unit

/-- `max_uint256 = 2**256 - 1`. -/
def maxUint256 : Int := 2 ^ 256 - 1

/-- The boundary-input matrix `test_cases` of test_overflow:
`[max_uint256, max_uint256 - 1, max_uint256 + 1, 0, -1]`. -/
def overflowInputs : List Int :=
  [maxUint256, maxUint256 - 1, maxUint256 + 1, 0, -1]

/-- The HIGH finding test_overflow logs for an out-of-range input that did not
revert. -/
def mkOverflowFinding (fname : String) (i : Int) : Finding :=
  ⟨"INTEGER_OVERFLOW",
    "Integer overflow in " ++ fname ++ " with input " ++ toString i, "HIGH"⟩

/-- The `for test_input in test_cases` loop of test_overflow.  The
accumulator carries the tester's findings list and the trace of inputs the
target entry point has been invoked with.  A call that raises (any exception)
hits `except Exception: continue`; a call that returns logs a HIGH finding
exactly when the input is out of range (`test_input > max_uint256 or
test_input < 0`). -/
def overflowLoop (tgt : OverflowTarget) (fname : String)
    (acc : List Finding × List Int) : List Int → List Finding × List Int
  | [] => acc
  | i :: rest =>
    match tgt.call i with
    | .error _ => overflowLoop tgt fname (acc.1, acc.2 ++ [i]) rest
    | .ok _ =>
      if maxUint256 < i ∨ i < 0 then
        overflowLoop tgt fname
          (acc.1 ++ [mkOverflowFinding fname i], acc.2 ++ [i]) rest
      else
        overflowLoop tgt fname (acc.1, acc.2 ++ [i]) rest

/-- IntegerOverflowTester.test_overflow.  `st` is the tester's accumulated
`vulnerabilities_found` list; the result pairs the updated list with the trace
of inputs passed to the target.  The whole body sits inside
`try: ... except Exception as e: print(...)`, and every exception a target
call can raise is already caught by the inner handler, so the probe never
propagates an exception — the `Except` result records this: no execution path
produces `.error`. -/
def test_overflow (tgt : OverflowTarget) (st : List Finding)
    (fname : String) : Except Exc (List Finding × List Int) :=
  if tgt.hasFn then .ok (overflowLoop tgt fname (st, []) overflowInputs)
  else .ok (st, [])

/-- The target surface AccessControlTester.test_access_control touches:
`hasFn f` models `hasattr(contract, f)`, and `callUnprivileged f` models
`tx = func({"from": accounts[1]}); tx.wait(1)` — invoking entry point `f`
from the unprivileged identity `accounts[1]`. -/
structure ACTarget where
  hasFn : String → Bool
  callUnprivileged : String → Except Exc Unit

/-- The HIGH finding test_access_control logs when a restricted entry point
can be called by the unprivileged account without reverting. -/
def mkAccessFinding (fname : String) : Finding :=
  ⟨"ACCESS_CONTROL", "Access control bypass in " ++ fname, "HIGH"⟩

/-- The `for function_name in restricted_functions` loop of
test_access_control.  An entry point absent from the target is skipped; a
call that raises hits `except Exception: print(...)` and is skipped; a call
that returns logs the ACCESS_CONTROL HIGH finding.  The second component
traces the entry points actually invoked from the unprivileged account. -/
def acLoop (tgt : ACTarget) (acc : List Finding × List String) :
    List String → List Finding × List String
  | [] => acc
  | f :: rest =>
    if tgt.hasFn f then
      match tgt.callUnprivileged f with
      | .ok _ => acLoop tgt (acc.1 ++ [mkAccessFinding f], acc.2 ++ [f]) rest
      | .error _ => acLoop tgt (acc.1, acc.2 ++ [f]) rest
    else acLoop tgt acc rest

/-- AccessControlTester.test_access_control.  Every exception a target call
can raise is caught by the per-call handler, so no execution path produces
`.error`. -/
def test_access_control (tgt : ACTarget) (st : List Finding)
    (restricted : List String) : Except Exc (List Finding × List String) :=
  .ok (acLoop tgt (st, []) restricted)

end SecTest

namespace SecTest

/-- The eight probe categories of SecurityTestSuite.testers, in insertion
order. -/
inductive Cat where
  | reentrancy
  | overflow
  | access_control
  | gas_limit
  | front_running
  | oracle
  | slippage
  | flash_loan
deriving DecidableEq, Repr

/-- The iteration order of `self.testers.items()`. -/
def allCats : List Cat :=
  [.reentrancy, .overflow, .access_control, .gas_limit, .front_running,
   .oracle, .slippage, .flash_loan]

/-- The `test_config` dict of run_all_tests: each per-category key is present
(`some` the configured entry-point list) or absent (`none`), together with the
scalar parameters read with `.get` defaults. -/
structure Config where
  reentrancy_functions : Option (List String) := none
  overflow_functions : Option (List String) := none
  restricted_functions : Option (List String) := none
  gas_functions : Option (List String) := none
  oracle_functions : Option (List String) := none
  swap_functions : Option (List String) := none
  flash_loan_functions : Option (List String) := none
  amount : Option Int := none
  large_input : Option Int := none

/-- The per-category guard of the elif chain in run_all_tests: the entry-point
list dispatched to the category's probe block, or `none` when the
configuration key is absent.  The front_running category has no branch in
run_all_tests at all, so it is never dispatched. -/
def configuredList (c : Cat) (cfg : Config) : Option (List String) :=
  match c with
  | .reentrancy => cfg.reentrancy_functions
  | .overflow => cfg.overflow_functions
  | .access_control => cfg.restricted_functions
  | .gas_limit => cfg.gas_functions
  | .front_running => none
  | .oracle => cfg.oracle_functions
  | .slippage => cfg.swap_functions
  | .flash_loan => cfg.flash_loan_functions

/-- Abstract behaviour of one category's probe block when dispatched with its
configured entry-point list: the findings it appends to its tester's
`vulnerabilities_found` list before returning or raising, and the message of
the unexpected exception it raises, if any. -/
def ProbeSem : Type := Cat → List String → List Finding × Option String

/-- A category's entry in the `results` dict: a normal vulnerability report,
or `{"error": str(e)}` when the wrapped block raised. -/
inductive CatReport where
  | normal (r : TesterReport)
  | error (msg : String)
deriving DecidableEq, Repr

/-- Building the `results[test_name]` entry from the tester's accumulated
findings: get_vulnerability_report, whose own KeyError (possible only for a
finding with an unknown severity) would also be caught by the per-category
handler. -/
def mkCatReport (fs : List Finding) : CatReport :=
  match getVulnerabilityReport fs with
  | some r => .normal r
  | none => .error "KeyError"

/-- Outcome of processing one category inside run_all_tests: the tester's
findings after the block, the category's `results` entry, and whether the
probe block was dispatched (its elif guard held). -/
structure CatOutcome where
  findings : List Finding
  report : CatReport
  ran : Bool
deriving Repr

/-- One iteration of the `for test_name, tester in self.testers.items()` loop:
if the category's config key is present its probe block runs (appending
findings and possibly raising, in which case the per-category except stores
`{"error": msg}`); in every case where no exception escapes, the entry is the
tester's current get_vulnerability_report — also for categories whose guard
did not hold. -/
def runCategory (sem : ProbeSem) (fs : List Finding) (c : Cat)
    (cfg : Config) : CatOutcome :=
  match configuredList c cfg with
  | some args =>
    match sem c args with
    | (appended, some msg) => ⟨fs ++ appended, .error msg, true⟩
    | (appended, none) => ⟨fs ++ appended, mkCatReport (fs ++ appended), true⟩
  | none => ⟨fs, mkCatReport fs, false⟩

/-- The value run_all_tests produces: the `results` dict in insertion order,
the suite's tester states after the run, and the categories whose probe block
was dispatched. -/
structure RunOutcome where
  results : List (Cat × CatReport)
  state : Cat → List Finding
  invoked : List Cat

/-- The orchestration loop over a list of categories, threading the per-tester
finding lists. -/
def runCats (sem : ProbeSem) (st : Cat → List Finding) (cfg : Config) :
    List Cat → RunOutcome
  | [] => ⟨[], st, []⟩
  | c :: rest =>
    let out := runCategory sem (st c) c cfg
    let rec_ := runCats sem (fun c' => if c' = c then out.findings else st c')
      cfg rest
    ⟨(c, out.report) :: rec_.results, rec_.state,
      (if out.ran then [c] else []) ++ rec_.invoked⟩

/-- SecurityTestSuite.run_all_tests: iterate the eight categories in testers
order. -/
def runAllTests (sem : ProbeSem) (st : Cat → List Finding)
    (cfg : Config) : RunOutcome :=
  runCats sem st cfg allCats

/-- Fresh suite state: every tester's `vulnerabilities_found` starts empty
(SecurityTester.__init__). -/
def freshState : Cat → List Finding := fun _ => []

/-- An empty configuration: no category key present. -/
def emptyConfig : Config := {}

/-- `results` lookup by category (Python dict indexing). -/
def lookupCat (c : Cat) : List (Cat × CatReport) → Option CatReport
  | [] => none
  | (c', r) :: rest => if c = c' then some r else lookupCat c rest

/-- The findings a `results` entry reports: an error entry reports none. -/
def findingsOfReport : Option CatReport → List Finding
  | some (.normal r) => r.vulnerabilities
  | some (.error _) => []
  | none => []

/-- Whether a target call returned normally (its transaction went through)
rather than raising. -/
def callSucceeded : Except Exc Unit → Bool
  | .ok _ => true
  | .error _ => false

/-- The two count/length invariants of the aggregation state. -/
def aggInv (st : AggState) : Prop :=
  st.total = st.vulns.length ∧ st.total = st.counts.sum

/-- Spec-side reading of the normalization rule: the impact string
case-insensitively contains the substring "critical" — some contiguous run of
its characters lower-cases to "critical". -/
def containsCriticalCI (s : String) : Prop :=
  ∃ sub, sub <:+: s.data ∧ sub.map Char.toLower = "critical".data

/-- A target on which every boundary call reverts (used to exhibit Scenario
B: an out-of-range input whose call reverts yields no finding). -/
def overflowRevertTarget : OverflowTarget :=
  ⟨true, fun _ => .error ⟨.revert, "execution reverted"⟩⟩

/-- A target whose calls all raise a non-revert exception (a
malformed-configuration error). -/
def malformedTarget : OverflowTarget :=
  ⟨true, fun _ => .error ⟨.other, "malformed configuration"⟩⟩

/-- A target exposing one restricted entry point that an unprivileged caller
can invoke without a revert. -/
def acOpenTarget : ACTarget :=
  ⟨fun g => g == "setOwner", fun _ => .ok ()⟩

/-- Probe behaviour where every dispatched probe block finds nothing and
raises nothing. -/
def semQuiet : ProbeSem := fun _ _ => ([], none)

/-- Probe behaviour for a first orchestration run: the overflow probe logs
one finding; everything else is quiet. -/
def semRun1 : ProbeSem := fun c _ =>
  match c with
  | .overflow =>
    ([⟨"INTEGER_OVERFLOW", "Integer overflow in add with input -1", "HIGH"⟩],
      none)
  | _ => ([], none)

/-- Probe behaviour for a second orchestration run: the overflow probe raises
an unexpected error; everything else is quiet. -/
def semRun2 : ProbeSem := fun c _ =>
  match c with
  | .overflow => ([], some "boom")
  | _ => ([], none)

/-- Probe behaviour where the overflow probe raises and the access-control
probe logs one finding. -/
def semErrOverflow : ProbeSem := fun c _ =>
  match c with
  | .overflow => ([], some "boom")
  | .access_control => ([mkAccessFinding "setOwner"], none)
  | _ => ([], none)

/-- A configuration declaring only the overflow category. -/
def cfgOverflowOnly : Config := { overflow_functions := some ["add"] }

/-- A configuration declaring the overflow and access-control categories. -/
def cfgTwoCats : Config :=
  { overflow_functions := some ["add"], restricted_functions := some ["setOwner"] }

/-- A concrete tester finding list with only HIGH/MEDIUM/LOW severities. -/
def vsC1 : List Finding :=
  [⟨"ACCESS_CONTROL", "Access control bypass in setOwner", "HIGH"⟩,
   ⟨"GAS_LIMIT", "High gas usage in batch", "MEDIUM"⟩]

/-- Concrete aggregator inputs: one test-report file with one result holding
one HIGH vulnerability, plus one Slither detector of critical impact. -/
def inpC1 : AggInput :=
  ⟨[("test_security_comprehensive.py",
      [some [⟨some "REENTRANCY", some "Reentrancy detected", some "HIGH"⟩],
       none])],
    some [⟨some "reentrancy-eth", some "Reentrancy in withdraw",
      some "Critical severity"⟩]⟩

/-- A concrete in-progress aggregation state holding one finding. -/
def stC5 : AggState :=
  ⟨1, ⟨1, 0, 0⟩,
    [⟨"test_security_comprehensive.py", "REENTRANCY", "Reentrancy detected",
      "HIGH"⟩]⟩

/-- A concrete non-empty external diagnostics list. -/
def dsC5 : List Detector :=
  [⟨some "reentrancy-eth", some "Reentrancy in withdraw",
     some "Critical severity"⟩,
   ⟨some "pragma", some "Old compiler", none⟩]

end SecTest


namespace SecTest

theorem bump_of_valid (c : SevCounts) (s : String) (h : validSeverity s) :
    ∃ c', bump c s = some c' ∧ c'.sum = c.sum + 1 := by
  rcases h with h | h | h <;> subst h
  · exact ⟨_, rfl, by simp [SevCounts.sum, bump]; omega⟩
  · exact ⟨_, rfl, by simp [SevCounts.sum, bump]; omega⟩
  · exact ⟨_, rfl, by simp [SevCounts.sum, bump]; omega⟩

theorem countFrom_of_valid :
    ∀ (vs : List Finding) (c : SevCounts),
      (∀ v ∈ vs, validSeverity v.severity) →
      ∃ c', countFrom c vs = some c' ∧ c'.sum = c.sum + vs.length := by
  intro vs
  induction vs with
  | nil => intro c _; exact ⟨c, rfl, by simp⟩
  | cons v vs ih =>
    intro c h
    obtain ⟨c1, hb, hs⟩ := bump_of_valid c v.severity (h v (by simp))
    obtain ⟨c', hc, hs'⟩ := ih c1 fun w hw => h w (by simp [hw])
    refine ⟨c', by simp [countFrom, hb, hc], ?_⟩
    rw [hs', hs]
    simp
    omega

theorem getReport_of_valid (vs : List Finding)
    (h : ∀ v ∈ vs, validSeverity v.severity) :
    ∃ rep, getVulnerabilityReport vs = some rep ∧
      rep.total_vulnerabilities = vs.length ∧ rep.vulnerabilities = vs ∧
      rep.severity_counts.sum = vs.length := by
  obtain ⟨c', hc, hs⟩ := countFrom_of_valid vs ⟨0, 0, 0⟩ h
  refine ⟨⟨vs.length, vs, c'⟩, ?_, rfl, rfl, ?_⟩
  · simp [getVulnerabilityReport, countBySeverity, hc]
  · rw [hs]; simp [SevCounts.sum]

theorem processVulns_of_valid :
    ∀ (vs : List RawVuln) (st : AggState) (file : String),
      (∀ v ∈ vs, validSeverity (v.severity.getD "LOW")) →
      ∃ c', processVulns file st vs =
        ({ total := st.total, counts := c',
           vulns := st.vulns ++ vs.map (mkFileVuln file) }, false) ∧
        c'.sum = st.counts.sum + vs.length := by
  intro vs
  induction vs with
  | nil => intro st file _; exact ⟨st.counts, by simp [processVulns], by simp⟩
  | cons v vs ih =>
    intro st file h
    obtain ⟨c1, hb, hs⟩ := bump_of_valid st.counts _ (h v (by simp))
    obtain ⟨c', hrec, hs'⟩ :=
      ih { st with counts := c1, vulns := st.vulns ++ [mkFileVuln file v] }
        file (fun w hw => h w (by simp [hw]))
    refine ⟨c', ?_, ?_⟩
    · simp only [processVulns, hb, hrec]
      simp
    · rw [hs', hs]
      simp
      omega

theorem processResults_inv :
    ∀ (rs : List (Option (List RawVuln))) (st : AggState) (file : String),
      (∀ r ∈ rs, ∀ ws, r = some ws →
        ∀ v ∈ ws, validSeverity (v.severity.getD "LOW")) →
      aggInv st → aggInv (processResults file st rs) := by
  intro rs
  induction rs with
  | nil => intro st file _ hinv; exact hinv
  | cons r rs ih =>
    intro st file h hinv
    match r with
    | none =>
      simp only [processResults, processResult]
      exact ih st file (fun r' hr' => h r' (by simp [hr'])) hinv
    | some ws =>
      obtain ⟨h1, h2⟩ := hinv
      obtain ⟨c', hp, hs⟩ :=
        processVulns_of_valid ws { st with total := st.total + ws.length } file
          (h (some ws) (by simp) ws rfl)
      simp only [processResults, processResult, hp]
      simp only [AggState.mk.injEq] at hs
      refine ih _ file (fun r' hr' => h r' (by simp [hr'])) ⟨?_, ?_⟩
      · simp [h1]
      · simp at hs ⊢
        omega

theorem processFiles_inv :
    ∀ (fs : List (String × List (Option (List RawVuln)))) (st : AggState),
      (∀ p ∈ fs, ∀ r ∈ p.2, ∀ ws, r = some ws →
        ∀ v ∈ ws, validSeverity (v.severity.getD "LOW")) →
      aggInv st → aggInv (processFiles st fs) := by
  intro fs
  induction fs with
  | nil => intro st _ hinv; exact hinv
  | cons p fs ih =>
    intro st h hinv
    simp only [processFiles]
    exact ih _ (fun q hq => h q (by simp [hq]))
      (processResults_inv p.2 st p.1 (fun r hr => h p (by simp) r hr) hinv)

theorem slitherSeverity_valid (d : Detector) :
    validSeverity (slitherSeverity d) := by
  cases h : containsCritical (d.impact.getD "") <;>
    simp [slitherSeverity, h, validSeverity]

theorem mergeDetectors_spec :
    ∀ (ds : List Detector) (st : AggState),
      ∃ c', mergeDetectors st ds =
        { total := st.total + ds.length, counts := c',
          vulns := st.vulns ++ ds.map mkSlitherVuln } ∧
        c'.sum = st.counts.sum + ds.length := by
  intro ds
  induction ds with
  | nil => intro st; exact ⟨st.counts, by simp [mergeDetectors], by simp⟩
  | cons d ds ih =>
    intro st
    obtain ⟨c1, hb, hs⟩ :=
      bump_of_valid st.counts (slitherSeverity d) (slitherSeverity_valid d)
    obtain ⟨c', hrec, hs'⟩ :=
      ih { total := st.total + 1, counts := c1,
           vulns := st.vulns ++ [mkSlitherVuln d] }
    refine ⟨c', ?_, ?_⟩
    · simp only [mergeDetectors, hb, hrec]
      simp
      omega
    · rw [hs', hs]
      simp
      omega

theorem aggregate_inv (inp : AggInput)
    (h : ∀ p ∈ inp.files, ∀ r ∈ p.2, ∀ ws, r = some ws →
      ∀ v ∈ ws, validSeverity (v.severity.getD "LOW")) :
    aggInv (aggregate inp) := by
  have hfiles : aggInv (processFiles initAgg inp.files) :=
    processFiles_inv inp.files initAgg h ⟨rfl, rfl⟩
  match hsl : inp.slither with
  | none => simpa [aggregate, hsl] using hfiles
  | some ds =>
    obtain ⟨c', hm, hs⟩ := mergeDetectors_spec ds (processFiles initAgg inp.files)
    simp only [aggregate, hsl, hm]
    exact ⟨by simp [hfiles.1], by simp [hs, hfiles.2]⟩

end SecTest

namespace SecTest

theorem riskLevel_spec (c : SevCounts) :
    (riskLevel c = "HIGH" ↔ 0 < c.high) ∧
    (riskLevel c = "MEDIUM" ↔ (c.high = 0 ∧ 0 < c.medium)) ∧
    (riskLevel c = "LOW" ↔ (c.high = 0 ∧ c.medium = 0)) := by
  by_cases h1 : 0 < c.high
  · refine ⟨?_, ?_, ?_⟩ <;> simp [riskLevel, h1] <;> omega
  · by_cases h2 : 0 < c.medium <;>
      refine ⟨?_, ?_, ?_⟩ <;> simp [riskLevel, h1, h2] <;> omega

theorem infix_map_iff (f : Char → Char) (t l : List Char) :
    t <:+: l.map f ↔ ∃ s, s <:+: l ∧ s.map f = t := by
  constructor
  · rintro ⟨p, q, hpq⟩
    rw [List.append_assoc] at hpq
    obtain ⟨l₁, l₂, hl, hm1, hm2⟩ := List.append_eq_map_iff.mp hpq
    obtain ⟨l₃, l₄, hl₂, hm3, hm4⟩ := List.append_eq_map_iff.mp hm2.symm
    refine ⟨l₃, ⟨l₁, l₄, ?_⟩, hm3⟩
    rw [hl, hl₂, List.append_assoc]
  · rintro ⟨s, ⟨p, q, hpq⟩, hmap⟩
    exact ⟨p.map f, q.map f,
      by rw [← hmap, ← List.map_append, ← List.map_append, hpq]⟩

theorem containsCritical_iff (s : String) :
    containsCritical s = true ↔ containsCriticalCI s := by
  unfold containsCritical containsCriticalCI lcData
  rw [decide_eq_true_iff]
  exact infix_map_iff Char.toLower "critical".data s.data

theorem overflowLoop_spec (tgt : OverflowTarget) (fname : String) :
    ∀ (l : List Int) (acc : List Finding × List Int),
      overflowLoop tgt fname acc l =
        (acc.1 ++ l.filterMap (fun i =>
            if (maxUint256 < i ∨ i < 0) ∧ callSucceeded (tgt.call i) = true
            then some (mkOverflowFinding fname i) else none),
          acc.2 ++ l) := by
  intro l
  induction l with
  | nil => intro acc; simp [overflowLoop]
  | cons i rest ih =>
    intro acc
    rcases hc : tgt.call i with e | u
    · simp [overflowLoop, hc, ih, callSucceeded, List.filterMap_cons]
    · by_cases hr : maxUint256 < i ∨ i < 0 <;>
        simp [overflowLoop, hc, hr, ih, callSucceeded, List.filterMap_cons]

theorem acLoop_spec (tgt : ACTarget) :
    ∀ (l : List String) (acc : List Finding × List String),
      acLoop tgt acc l =
        (acc.1 ++ l.filterMap (fun g =>
            if tgt.hasFn g = true ∧ callSucceeded (tgt.callUnprivileged g) = true
            then some (mkAccessFinding g) else none),
          acc.2 ++ l.filter (fun g => tgt.hasFn g)) := by
  intro l
  induction l with
  | nil => intro acc; simp [acLoop]
  | cons g rest ih =>
    intro acc
    rcases hg : tgt.hasFn g with _ | _
    · simp [acLoop, hg, ih, List.filterMap_cons, List.filter_cons]
    · rcases hc : tgt.callUnprivileged g with e | u <;>
        simp [acLoop, hg, hc, ih, callSucceeded, List.filterMap_cons,
          List.filter_cons]

theorem runCategory_ran (sem : ProbeSem) (fs : List Finding) (c : Cat)
    (cfg : Config) :
    (runCategory sem fs c cfg).ran = (configuredList c cfg).isSome := by
  rcases h : configuredList c cfg with _ | args
  · simp [runCategory, h]
  · rcases hs : sem c args with ⟨app, _ | m⟩ <;> simp [runCategory, h, hs]

theorem runCats_results_map (sem : ProbeSem) (cfg : Config) :
    ∀ (l : List Cat) (st : Cat → List Finding),
      ((runCats sem st cfg l).results.map Prod.fst) = l := by
  intro l
  induction l with
  | nil => intro st; rfl
  | cons c rest ih => intro st; simp [runCats, ih]

theorem runCats_invoked (sem : ProbeSem) (cfg : Config) :
    ∀ (l : List Cat) (st : Cat → List Finding),
      (runCats sem st cfg l).invoked =
        l.filter (fun c => (configuredList c cfg).isSome) := by
  intro l
  induction l with
  | nil => intro st; rfl
  | cons c rest ih =>
    intro st
    rcases hb : (configuredList c cfg).isSome with _ | _ <;>
      simp [runCats, runCategory_ran, hb, ih, List.filter_cons]

theorem lookup_runCats (sem : ProbeSem) (cfg : Config) :
    ∀ (l : List Cat) (st : Cat → List Finding) (c : Cat), c ∈ l →
      lookupCat c (runCats sem st cfg l).results =
        some (runCategory sem (st c) c cfg).report := by
  intro l
  induction l with
  | nil => intro st c hc; cases hc
  | cons c' rest ih =>
    intro st c hc
    by_cases hcc : c = c'
    · subst hcc; simp [runCats, lookupCat]
    · have hmem : c ∈ rest := by
        rcases List.mem_cons.mp hc with h | h
        · exact absurd h hcc
        · exact h
      simp only [runCats, lookupCat, if_neg hcc]
      rw [ih _ c hmem]
      simp [hcc]

theorem state_runCats_not_mem (sem : ProbeSem) (cfg : Config) :
    ∀ (l : List Cat) (st : Cat → List Finding) (c : Cat), c ∉ l →
      (runCats sem st cfg l).state c = st c := by
  intro l
  induction l with
  | nil => intro st c _; rfl
  | cons c' rest ih =>
    intro st c hc
    have hne : c ≠ c' := fun h => hc (by simp [h])
    have hrest : c ∉ rest := fun h => hc (by simp [h])
    simp only [runCats]
    rw [ih _ c hrest]
    simp [hne]

theorem state_runCats (sem : ProbeSem) (cfg : Config) :
    ∀ (l : List Cat) (st : Cat → List Finding) (c : Cat), c ∈ l → l.Nodup →
      (runCats sem st cfg l).state c =
        (runCategory sem (st c) c cfg).findings := by
  intro l
  induction l with
  | nil => intro st c hc _; cases hc
  | cons c' rest ih =>
    intro st c hc hnd
    rcases List.nodup_cons.mp hnd with ⟨hc', hrest⟩
    by_cases hcc : c = c'
    · subst hcc
      simp only [runCats]
      rw [state_runCats_not_mem sem cfg rest _ c hc']
      simp
    · have hmem : c ∈ rest := by
        rcases List.mem_cons.mp hc with h | h
        · exact absurd h hcc
        · exact h
      simp only [runCats]
      rw [ih _ c hmem hrest]
      simp [hcc]

theorem runCategory_findings (sem : ProbeSem) (fs : List Finding) (c : Cat)
    (cfg : Config) :
    ∃ app, (runCategory sem fs c cfg).findings = fs ++ app := by
  rcases h : configuredList c cfg with _ | args
  · exact ⟨[], by simp [runCategory, h]⟩
  · rcases hs : sem c args with ⟨app, _ | m⟩ <;>
      exact ⟨app, by simp [runCategory, h, hs]⟩

theorem mkCatReport_normal (fs : List Finding) (r : TesterReport)
    (h : mkCatReport fs = .normal r) : r.vulnerabilities = fs := by
  unfold mkCatReport at h
  rcases hc : getVulnerabilityReport fs with _ | rep
  · rw [hc] at h; cases h
  · rw [hc] at h
    unfold getVulnerabilityReport at hc
    rcases hcnt : countBySeverity fs with _ | cnt
    · rw [hcnt] at hc; cases hc
    · rw [hcnt] at hc
      simp at hc
      cases h
      rw [← hc]

theorem runCategory_report_normal (sem : ProbeSem) (fs : List Finding)
    (c : Cat) (cfg : Config) (r : TesterReport)
    (h : (runCategory sem fs c cfg).report = .normal r) :
    r.vulnerabilities = (runCategory sem fs c cfg).findings := by
  rcases hcfg : configuredList c cfg with _ | args
  · simp only [runCategory, hcfg] at h ⊢
    exact mkCatReport_normal _ _ h
  · rcases hs : sem c args with ⟨app, _ | m⟩
    · simp only [runCategory, hcfg, hs] at h ⊢
      exact mkCatReport_normal _ _ h
    · simp only [runCategory, hcfg, hs] at h
      exact CatReport.noConfusion h

theorem runCategory_report_error (sem : ProbeSem) (fs : List Finding)
    (c : Cat) (cfg : Config) (args : List String) (app : List Finding)
    (msg : String) (hcfg : configuredList c cfg = some args)
    (hs : sem c args = (app, some msg)) :
    (runCategory sem fs c cfg).report = .error msg := by
  simp [runCategory, hcfg, hs]

theorem mem_allCats (c : Cat) : c ∈ allCats := by
  cases c <;> simp [allCats]

theorem allCats_nodup : allCats.Nodup := by decide

end SecTest

namespace SecTest

/-- C1: for every unified report built by the aggregator, the reported total
vulnerability count equals the length of the flattened findings list and
equals the sum of the values of the severity-count map; likewise, for every
per-category report, the severity counts sum to the number of findings in
that category — under the precondition that every finding's severity is one
of HIGH, MEDIUM, LOW. -/
theorem report_count_invariants (vs : List Finding) (inp : AggInput)
    (h1 : ∀ v ∈ vs, validSeverity v.severity)
    (h2 : ∀ p ∈ inp.files, ∀ r ∈ p.2, ∀ ws, r = some ws →
      ∀ v ∈ ws, validSeverity (v.severity.getD "LOW")) :
    (∃ rep, getVulnerabilityReport vs = some rep ∧
      rep.total_vulnerabilities = rep.vulnerabilities.length ∧
      rep.total_vulnerabilities = rep.severity_counts.sum) ∧
    (aggregate inp).total = (aggregate inp).vulns.length ∧
    (aggregate inp).total = (aggregate inp).counts.sum := by
  obtain ⟨rep, hrep, ht, hv, hs⟩ := getReport_of_valid vs h1
  obtain ⟨ha1, ha2⟩ := aggregate_inv inp h2
  exact ⟨⟨rep, hrep, by rw [ht, hv], by rw [ht, hs]⟩, ha1, ha2⟩

/-- Witness for C1 at concrete inputs: a two-finding tester list and an
aggregation over one report file plus one Slither detector. -/
theorem report_count_invariants_witness :
    ((∀ v ∈ vsC1, validSeverity v.severity) ∧
      (∀ p ∈ inpC1.files, ∀ r ∈ p.2, ∀ ws, r = some ws →
        ∀ v ∈ ws, validSeverity (v.severity.getD "LOW"))) ∧
    ((∃ rep, getVulnerabilityReport vsC1 = some rep ∧
      rep.total_vulnerabilities = rep.vulnerabilities.length ∧
      rep.total_vulnerabilities = rep.severity_counts.sum) ∧
    (aggregate inpC1).total = (aggregate inpC1).vulns.length ∧
    (aggregate inpC1).total = (aggregate inpC1).counts.sum) :=
  ⟨⟨by decide, by decide⟩,
    report_count_invariants vsC1 inpC1 (by decide) (by decide)⟩

/-- C2: for every unified report, the computed risk level is HIGH iff the
HIGH severity count is positive; otherwise MEDIUM iff the MEDIUM severity
count is positive; otherwise LOW — and the report over empty inputs (zero
findings) has risk level LOW. -/
theorem risk_level_policy (inp : AggInput) :
    ((comprehensiveSummary inp).risk_level = "HIGH" ↔
      0 < (comprehensiveSummary inp).severity_counts.high) ∧
    ((comprehensiveSummary inp).risk_level = "MEDIUM" ↔
      ((comprehensiveSummary inp).severity_counts.high = 0 ∧
        0 < (comprehensiveSummary inp).severity_counts.medium)) ∧
    ((comprehensiveSummary inp).risk_level = "LOW" ↔
      ((comprehensiveSummary inp).severity_counts.high = 0 ∧
        (comprehensiveSummary inp).severity_counts.medium = 0)) ∧
    comprehensiveSummary ⟨[], none⟩ = ⟨0, ⟨0, 0, 0⟩, "LOW"⟩ := by
  obtain ⟨hh, hm, hl⟩ := riskLevel_spec (aggregate inp).counts
  exact ⟨hh, hm, hl, rfl⟩

/-- C5: merging the external diagnostics list into a report under
construction is strictly additive: the merged flattened findings list has
length equal to the original count plus the external list's length, and the
original findings survive unchanged as a prefix. -/
theorem merge_external_additive (st : AggState) (ds : List Detector)
    (_h : ds ≠ []) :
    (mergeDetectors st ds).vulns.length = st.vulns.length + ds.length ∧
    ∃ t, (mergeDetectors st ds).vulns = st.vulns ++ t := by
  obtain ⟨c', hm, _⟩ := mergeDetectors_spec ds st
  rw [hm]
  exact ⟨by simp, ⟨ds.map mkSlitherVuln, rfl⟩⟩

/-- Witness for C5 at a concrete one-finding report and a concrete two-entry
external diagnostics list. -/
theorem merge_external_additive_witness :
    dsC5 ≠ [] ∧
    ((mergeDetectors stC5 dsC5).vulns.length = stC5.vulns.length + dsC5.length ∧
      ∃ t, (mergeDetectors stC5 dsC5).vulns = stC5.vulns ++ t) :=
  ⟨by decide, merge_external_additive stC5 dsC5 (by decide)⟩

/-- C6: the aggregator normalizes an external diagnostic record to a finding
whose severity is HIGH iff the record's impact string case-insensitively
contains the substring "critical", and MEDIUM otherwise. -/
theorem slither_severity_normalization (d : Detector) :
    ((mkSlitherVuln d).severity = "HIGH" ↔
      containsCriticalCI (d.impact.getD "")) ∧
    ((mkSlitherVuln d).severity = "MEDIUM" ↔
      ¬ containsCriticalCI (d.impact.getD "")) := by
  have key := containsCritical_iff (d.impact.getD "")
  have hsev : (mkSlitherVuln d).severity = slitherSeverity d := rfl
  rcases h : containsCritical (d.impact.getD "") with _ | _
  · have hci : ¬ containsCriticalCI (d.impact.getD "") := fun hc => by
      rw [key.mpr hc] at h; cases h
    rw [hsev]
    constructor
    · simp [slitherSeverity, h, hci]
    · simp [slitherSeverity, h, hci]
  · have hci := key.mp h
    rw [hsev]
    constructor
    · simp [slitherSeverity, h, hci]
    · simp [slitherSeverity, h, hci]

end SecTest

namespace SecTest

/-- C7: when the entry point exists, the integer-boundary probe invokes it
with exactly the inputs max, max−1, max+1, 0, −1 (the trace component), and
emits a (HIGH) finding for an input iff that input is out of range (above
max_uint256 or below 0) and the call does not revert (returns normally). -/
theorem overflow_probe_matrix (tgt : OverflowTarget) (st : List Finding)
    (fname : String) (h : tgt.hasFn = true) :
    test_overflow tgt st fname =
      .ok (st ++ overflowInputs.filterMap (fun i =>
          if (maxUint256 < i ∨ i < 0) ∧ callSucceeded (tgt.call i) = true
          then some (mkOverflowFinding fname i) else none),
        overflowInputs) ∧
    overflowInputs = [2 ^ 256 - 1, 2 ^ 256 - 2, 2 ^ 256, 0, -1] ∧
    (∀ i : Int, (mkOverflowFinding fname i).severity = "HIGH") := by
  refine ⟨?_, ?_, fun i => rfl⟩
  · simp [test_overflow, h, overflowLoop_spec]
  · norm_num [overflowInputs, maxUint256]

/-- Witness for C7 (Scenario B): on a target where every boundary call
reverts — in particular the max+1 call — the probe emits zero findings. -/
theorem overflow_probe_matrix_witness :
    overflowRevertTarget.hasFn = true ∧
    test_overflow overflowRevertTarget [] "deposit" =
      .ok ([], overflowInputs) := by
  refine ⟨rfl, ?_⟩
  have h := (overflow_probe_matrix overflowRevertTarget [] "deposit" rfl).1
  rw [h]
  simp [overflowRevertTarget, callSucceeded]

/-- C8: the access-control probe invokes, from the unprivileged identity,
exactly the configured restricted entry points present on the target (the
trace component), and emits a finding for one iff the call does not revert;
with a single configured entry point whose unprivileged call succeeds it
emits exactly one finding, of category ACCESS_CONTROL and severity HIGH. -/
theorem access_control_probe (tgt : ACTarget) (st : List Finding)
    (fns : List String) (f : String) (hf : tgt.hasFn f = true)
    (hok : callSucceeded (tgt.callUnprivileged f) = true) :
    test_access_control tgt st fns =
      .ok (st ++ fns.filterMap (fun g =>
          if tgt.hasFn g = true ∧ callSucceeded (tgt.callUnprivileged g) = true
          then some (mkAccessFinding g) else none),
        fns.filter (fun g => tgt.hasFn g)) ∧
    test_access_control tgt st [f] = .ok (st ++ [mkAccessFinding f], [f]) ∧
    mkAccessFinding f =
      ⟨"ACCESS_CONTROL", "Access control bypass in " ++ f, "HIGH"⟩ := by
  refine ⟨?_, ?_, rfl⟩
  · simp [test_access_control, acLoop_spec]
  · simp [test_access_control, acLoop_spec, hf, hok]

/-- Witness for C8 (Scenario A): one restricted entry point, present on the
target, whose unprivileged call succeeds — exactly one ACCESS_CONTROL HIGH
finding. -/
theorem access_control_probe_witness :
    acOpenTarget.hasFn "setOwner" = true ∧
    callSucceeded (acOpenTarget.callUnprivileged "setOwner") = true ∧
    test_access_control acOpenTarget [] ["setOwner"] =
      .ok ([⟨"ACCESS_CONTROL", "Access control bypass in setOwner", "HIGH"⟩],
        ["setOwner"]) := by
  refine ⟨rfl, rfl, ?_⟩
  have h := (access_control_probe acOpenTarget [] ["setOwner"] "setOwner"
    rfl rfl).2.1
  rw [h]
  rfl

/-- C9 counterexample: a non-revert exception (a malformed-configuration
error) raised by every target invocation is swallowed inside the
integer-boundary probe — the probe completes normally with no findings and
surfaces no probe-level error, where the claim requires the exception to
propagate out of the probe. -/
theorem overflow_probe_swallows_nonrevert :
    malformedTarget.call 0 = .error ⟨.other, "malformed configuration"⟩ ∧
    test_overflow malformedTarget [] "transfer" = .ok ([], overflowInputs) := by
  exact ⟨rfl, rfl⟩

/-- C9 amended: every exception raised during a target invocation — whether a
revert or not — is caught inside the probe by its per-call and outer
handlers, so the integer-boundary and access-control probes always return
normally and never themselves surface a probe-level error to the
orchestrator. -/
theorem probes_never_propagate (tgt : OverflowTarget) (st : List Finding)
    (fname : String) (tgt2 : ACTarget) (st2 : List Finding)
    (fns : List String) :
    (∃ out, test_overflow tgt st fname = .ok out) ∧
    (∃ out2, test_access_control tgt2 st2 fns = .ok out2) := by
  constructor
  · rcases h : tgt.hasFn with _ | _ <;> simp [test_overflow, h]
  · exact ⟨_, rfl⟩

/-- C3 counterexample: run_all_tests on an empty configuration does not
return an empty category-report map — all eight categories contribute an
entry (each an empty zero-vulnerability report). -/
theorem run_all_tests_empty_config_cex :
    (runAllTests semQuiet freshState emptyConfig).results =
      allCats.map (fun c => (c, .normal ⟨0, [], ⟨0, 0, 0⟩⟩)) ∧
    (runAllTests semQuiet freshState emptyConfig).results.length = 8 ∧
    (runAllTests semQuiet freshState emptyConfig).results ≠ [] := by
  exact ⟨rfl, rfl, by decide⟩

/-- C3 amended: a category's probe block is dispatched only when the
configuration has that category's key, but every category always contributes
a CategoryReport (an undeclared category contributes its tester's current
report); an empty configuration on a fresh suite yields one empty report per
category rather than an empty map. -/
theorem run_all_tests_category_dispatch (sem : ProbeSem)
    (st : Cat → List Finding) (cfg : Config) (c : Cat)
    (hc : c ∈ (runAllTests sem st cfg).invoked) :
    (configuredList c cfg).isSome = true ∧
    (runAllTests sem st cfg).results.map Prod.fst = allCats ∧
    (runAllTests sem freshState emptyConfig).results =
      allCats.map (fun c' => (c', .normal ⟨0, [], ⟨0, 0, 0⟩⟩)) := by
  refine ⟨?_, runCats_results_map sem cfg allCats st, rfl⟩
  have h := runCats_invoked sem cfg allCats st
  rw [runAllTests, h] at hc
  exact (List.mem_filter.mp hc).2

/-- Witness for C3 (amended) at a configuration declaring only the overflow
category, whose probe block is indeed dispatched. -/
theorem run_all_tests_category_dispatch_witness :
    (Cat.overflow ∈ (runAllTests semQuiet freshState cfgOverflowOnly).invoked) ∧
    ((configuredList Cat.overflow cfgOverflowOnly).isSome = true ∧
      (runAllTests semQuiet freshState cfgOverflowOnly).results.map Prod.fst =
        allCats ∧
      (runAllTests semQuiet freshState emptyConfig).results =
        allCats.map (fun c' => (c', .normal ⟨0, [], ⟨0, 0, 0⟩⟩))) :=
  ⟨by decide,
    run_all_tests_category_dispatch semQuiet freshState cfgOverflowOnly
      Cat.overflow (by decide)⟩

/-- C4: if a configured category's probe block raises an unexpected error,
that category's entry in the returned map is the error report with that
message, the run is not aborted (all eight categories still appear, in
order), and every other configured category still dispatches its probe block
and contributes exactly the report its own computation yields. -/
theorem run_all_tests_isolates_probe_error (sem : ProbeSem)
    (st : Cat → List Finding) (cfg : Config) (c : Cat) (args : List String)
    (app : List Finding) (msg : String)
    (hcfg : configuredList c cfg = some args)
    (hs : sem c args = (app, some msg)) :
    lookupCat c (runAllTests sem st cfg).results = some (.error msg) ∧
    (runAllTests sem st cfg).results.map Prod.fst = allCats ∧
    ∀ c', c' ≠ c → (configuredList c' cfg).isSome = true →
      (c' ∈ (runAllTests sem st cfg).invoked ∧
        lookupCat c' (runAllTests sem st cfg).results =
          some (runCategory sem (st c') c' cfg).report) := by
  refine ⟨?_, runCats_results_map sem cfg allCats st, ?_⟩
  · have h1 := lookup_runCats sem cfg allCats st c (mem_allCats c)
    have h2 := runCategory_report_error sem (st c) c cfg args app msg hcfg hs
    rw [← h2]
    exact h1
  · intro c' _ hcfg'
    refine ⟨?_, lookup_runCats sem cfg allCats st c' (mem_allCats c')⟩
    show c' ∈ (runCats sem st cfg allCats).invoked
    rw [runCats_invoked sem cfg allCats st]
    exact List.mem_filter.mpr ⟨mem_allCats c', hcfg'⟩

/-- Witness for C4: the overflow probe raises "boom" while the access-control
probe is also configured; overflow's entry is the error report and the rest
of the run is unaffected. -/
theorem run_all_tests_isolates_probe_error_witness :
    configuredList Cat.overflow cfgTwoCats = some ["add"] ∧
    semErrOverflow Cat.overflow ["add"] = ([], some "boom") ∧
    (lookupCat Cat.overflow
        (runAllTests semErrOverflow freshState cfgTwoCats).results =
      some (.error "boom") ∧
    (runAllTests semErrOverflow freshState cfgTwoCats).results.map Prod.fst =
      allCats ∧
    ∀ c', c' ≠ Cat.overflow → (configuredList c' cfgTwoCats).isSome = true →
      (c' ∈ (runAllTests semErrOverflow freshState cfgTwoCats).invoked ∧
        lookupCat c' (runAllTests semErrOverflow freshState cfgTwoCats).results =
          some (runCategory semErrOverflow (freshState c') c' cfgTwoCats).report)) :=
  ⟨rfl, rfl,
    run_all_tests_isolates_probe_error semErrOverflow freshState cfgTwoCats
      Cat.overflow ["add"] [] "boom" rfl rfl⟩

/-- C10 counterexample: the overflow probe logs one finding in a first run
(so the first call's report contains it) and raises in a second run on the
same suite — the second call's entry for the category is an error report
holding no findings, so the finding reported by the first call is not
contained in the second call's report for that category. -/
theorem suite_state_accumulation_cex :
    lookupCat Cat.overflow
        (runAllTests semRun1 freshState cfgOverflowOnly).results =
      some (.normal ⟨1,
        [⟨"INTEGER_OVERFLOW", "Integer overflow in add with input -1", "HIGH"⟩],
        ⟨1, 0, 0⟩⟩) ∧
    lookupCat Cat.overflow
        (runAllTests semRun2
          (runAllTests semRun1 freshState cfgOverflowOnly).state
          cfgOverflowOnly).results = some (.error "boom") ∧
    findingsOfReport (lookupCat Cat.overflow
      (runAllTests semRun2
        (runAllTests semRun1 freshState cfgOverflowOnly).state
        cfgOverflowOnly).results) = [] := by
  exact ⟨rfl, rfl, rfl⟩

/-- C10 amended: each tester's findings list is created once and only
appended to, so across two successive run_all_tests calls on the same suite,
every finding reported for a category by the first call is contained (as a
prefix) in that category's report from the second call — provided the second
call's entry for the category is a normal report (an error entry reports no
findings). -/
theorem suite_state_accumulation (sem1 sem2 : ProbeSem)
    (st : Cat → List Finding) (cfg1 cfg2 : Config) (c : Cat)
    (r2 : TesterReport)
    (h2 : lookupCat c
      (runAllTests sem2 (runAllTests sem1 st cfg1).state cfg2).results =
        some (.normal r2)) :
    ∃ t, r2.vulnerabilities =
      findingsOfReport (lookupCat c (runAllTests sem1 st cfg1).results) ++ t := by
  have hst1 : (runAllTests sem1 st cfg1).state c =
      (runCategory sem1 (st c) c cfg1).findings :=
    state_runCats sem1 cfg1 allCats st c (mem_allCats c) allCats_nodup
  have hl1 : lookupCat c (runAllTests sem1 st cfg1).results =
      some (runCategory sem1 (st c) c cfg1).report :=
    lookup_runCats sem1 cfg1 allCats st c (mem_allCats c)
  have hl2 : lookupCat c
      (runAllTests sem2 (runAllTests sem1 st cfg1).state cfg2).results =
      some (runCategory sem2 ((runAllTests sem1 st cfg1).state c) c cfg2).report :=
    lookup_runCats sem2 cfg2 allCats _ c (mem_allCats c)
  rw [hl2] at h2
  have hrep2 : (runCategory sem2 ((runAllTests sem1 st cfg1).state c) c
      cfg2).report = .normal r2 := by injection h2
  have hv2 := runCategory_report_normal sem2 _ c cfg2 r2 hrep2
  obtain ⟨app2, happ2⟩ :=
    runCategory_findings sem2 ((runAllTests sem1 st cfg1).state c) c cfg2
  rw [hl1]
  rcases hrep1 : (runCategory sem1 (st c) c cfg1).report with r1 | m
  · have hv1 := runCategory_report_normal sem1 (st c) c cfg1 r1 hrep1
    refine ⟨app2, ?_⟩
    rw [hv2, happ2, hst1]
    simp [findingsOfReport, hv1]
  · exact ⟨r2.vulnerabilities, by simp [findingsOfReport]⟩

/-- Witness for C10 (amended): two quiet runs over the same suite; the second
run's overflow entry is a normal (empty) report and the containment holds. -/
theorem suite_state_accumulation_witness :
    (lookupCat Cat.overflow
      (runAllTests semQuiet
        (runAllTests semQuiet freshState cfgOverflowOnly).state
        cfgOverflowOnly).results = some (.normal ⟨0, [], ⟨0, 0, 0⟩⟩)) ∧
    ∃ t, (⟨0, [], ⟨0, 0, 0⟩⟩ : TesterReport).vulnerabilities =
      findingsOfReport (lookupCat Cat.overflow
        (runAllTests semQuiet freshState cfgOverflowOnly).results) ++ t :=
  ⟨rfl,
    suite_state_accumulation semQuiet semQuiet freshState cfgOverflowOnly
      cfgOverflowOnly Cat.overflow ⟨0, [], ⟨0, 0, 0⟩⟩ rfl⟩

end SecTest
